import Mathlib

/-!
Verification of the waylon-smithers loop controller.

The definitions below are a shallow embedding of the JavaScript sources
(`src/lib.js` and the CLI module containing `runLoop`, `handleResume`):
pure string processing is translated directly, the file system and the
spawned agent process are passed in explicitly as oracles, and JavaScript
`null`/`undefined` is rendered as `Option`.
-/

namespace Smithers

/-! ## String utilities

JavaScript string operations (`split(/\r?\n/)`, `includes`, `trim`,
`startsWith`) are modelled over `List Char`. -/

/-- Whitespace characters recognised by `trim` and by JSON parsing
(ASCII whitespace; the exotic Unicode space classes are not modelled). -/
def wsChar (c : Char) : Bool :=
  c = ' ' || c = '\t' || c = '\n' || c = '\r' || c = '\x0b' || c = '\x0c'

def skipWs : List Char → List Char
  | c :: cs => if wsChar c then skipWs cs else c :: cs
  | [] => []

/-- Whether `needle` occurs at the head of `hay`. -/
def startsList : List Char → List Char → Bool
  | [], _ => true
  | _ :: _, [] => false
  | a :: as, b :: bs => a = b && startsList as bs

/-- Whether `needle` occurs somewhere in `hay` (JavaScript `hay.includes(needle)`). -/
def hasSub (needle : List Char) : List Char → Bool
  | [] => needle.isEmpty
  | b :: bs => startsList needle (b :: bs) || hasSub needle bs

/-- JavaScript `hay.includes(needle)`. -/
def containsStr (hay needle : String) : Bool :=
  hasSub needle.data hay.data

/-- Split on the regular expression `\r?\n`: a line break is a `'\n'`,
optionally preceded by a `'\r'` that is removed with it. -/
def splitLinesAux : List Char → List Char → List String
  | [], acc => [String.mk acc.reverse]
  | '\n' :: rest, acc =>
    let acc := match acc with
      | '\r' :: a => a
      | a => a
    String.mk acc.reverse :: splitLinesAux rest []
  | c :: rest, acc => splitLinesAux rest (c :: acc)

def splitLines (s : String) : List String :=
  splitLinesAux s.data []

/-- JavaScript `line.trim().startsWith("\x7b")`: after leading whitespace the
first character is an open brace. -/
def trimStartsWithBrace (l : String) : Bool :=
  match skipWs l.data with
  | c :: _ => c = '\x7b'
  | [] => false

/-! ## JSON values and `JSON.parse`

`parseSessionIdFromJsonLines` feeds whole lines to `JSON.parse`; the parser
below implements the JSON grammar (strict numbers, string escapes, arrays,
objects).  Numbers keep their lexeme: the claims never depend on numeric
values, only on JavaScript truthiness, which for a parsed JSON number is
falsity exactly when all mantissa digits are zero (floating-point underflow
of huge exponents is not modelled). -/

inductive Json where
  | null
  | bool (b : Bool)
  | num (lexeme : String)
  | str (s : String)
  | arr (elems : List Json)
  | obj (fields : List (String × Json))
deriving Repr

def digitChar (c : Char) : Bool := '0' ≤ c && c ≤ '9'

def hexVal? (c : Char) : Option Nat :=
  let n := c.toNat
  if 48 ≤ n && n ≤ 57 then some (n - 48)
  else if 97 ≤ n && n ≤ 102 then some (n - 87)
  else if 65 ≤ n && n ≤ 70 then some (n - 55)
  else none

/-- Body of a JSON string literal, after the opening quote. -/
def parseJStringBody : Nat → List Char → List Char → Option (String × List Char)
  | 0, _, _ => none
  | _ + 1, [], _ => none
  | _ + 1, '"' :: rest, acc => some (String.mk acc.reverse, rest)
  | fuel + 1, '\\' :: cs, acc =>
    match cs with
    | [] => none
    | e :: rest =>
      if e = '"' || e = '\\' || e = '/' then parseJStringBody fuel rest (e :: acc)
      else if e = 'b' then parseJStringBody fuel rest ('\x08' :: acc)
      else if e = 'f' then parseJStringBody fuel rest ('\x0c' :: acc)
      else if e = 'n' then parseJStringBody fuel rest ('\n' :: acc)
      else if e = 'r' then parseJStringBody fuel rest ('\r' :: acc)
      else if e = 't' then parseJStringBody fuel rest ('\t' :: acc)
      else if e = 'u' then
        match rest with
        | a :: b :: c :: d :: rest2 =>
          match hexVal? a, hexVal? b, hexVal? c, hexVal? d with
          | some ha, some hb, some hc, some hd =>
            parseJStringBody fuel rest2
              (Char.ofNat (((ha * 16 + hb) * 16 + hc) * 16 + hd) :: acc)
          | _, _, _, _ => none
        | _ => none
      else none
  | fuel + 1, c :: rest, acc =>
    if c.toNat < 32 then none else parseJStringBody fuel rest (c :: acc)

def takeDigits : List Char → List Char × List Char
  | [] => ([], [])
  | c :: cs =>
    if digitChar c then
      let (d, r) := takeDigits cs
      (c :: d, r)
    else ([], c :: cs)

/-- Optional fraction and exponent of a JSON number, appended to `acc`. -/
def parseFracExp (acc : List Char) (cs : List Char) : Option (List Char × List Char) :=
  let step1 : Option (List Char × List Char) :=
    match cs with
    | '.' :: rest =>
      let (d, r) := takeDigits rest
      if d.isEmpty then none else some (acc ++ '.' :: d, r)
    | _ => some (acc, cs)
  match step1 with
  | none => none
  | some (acc2, cs2) =>
    match cs2 with
    | e :: rest =>
      if e = 'e' || e = 'E' then
        let (sign, rest2) :=
          match rest with
          | '+' :: r => (['+'], r)
          | '-' :: r => (['-'], r)
          | r => (([] : List Char), r)
        let (d, r) := takeDigits rest2
        if d.isEmpty then none else some (acc2 ++ e :: (sign ++ d), r)
      else some (acc2, cs2)
    | [] => some (acc2, [])

/-- A JSON number literal (strict grammar: no leading zeros, mandatory
digits after `.` and the exponent marker). -/
def parseNumber (cs : List Char) : Option (String × List Char) :=
  let (neg, cs1) :=
    match cs with
    | '-' :: r => ((['-'] : List Char), r)
    | r => (([] : List Char), r)
  match cs1 with
  | '0' :: rest =>
    (match rest with
     | c :: _ =>
       if digitChar c then none
       else (parseFracExp (neg ++ ['0']) rest).map (fun (l, r) => (String.mk l, r))
     | [] => (parseFracExp (neg ++ ['0']) []).map (fun (l, r) => (String.mk l, r)))
  | c :: rest =>
    if digitChar c then
      let (d, r) := takeDigits rest
      (parseFracExp (neg ++ c :: d) r).map (fun (l, r2) => (String.mk l, r2))
    else none
  | [] => none

mutual

def parseValue : Nat → List Char → Option (Json × List Char)
  | 0, _ => none
  | fuel + 1, cs =>
    match skipWs cs with
    | 'n' :: 'u' :: 'l' :: 'l' :: rest => some (.null, rest)
    | 't' :: 'r' :: 'u' :: 'e' :: rest => some (.bool true, rest)
    | 'f' :: 'a' :: 'l' :: 's' :: 'e' :: rest => some (.bool false, rest)
    | '"' :: rest =>
      (match parseJStringBody rest.length rest [] with
       | some (s, r) => some (.str s, r)
       | none => none)
    | '[' :: rest =>
      (match skipWs rest with
       | ']' :: r => some (.arr [], r)
       | _ =>
         match parseElems fuel rest with
         | some (es, r) => some (.arr es, r)
         | none => none)
    | '\x7b' :: rest =>
      (match skipWs rest with
       | '\x7d' :: r => some (.obj [], r)
       | _ =>
         match parseMembers fuel rest with
         | some (fs, r) => some (.obj fs, r)
         | none => none)
    | other =>
      match parseNumber other with
      | some (lex, r) => some (.num lex, r)
      | none => none

def parseElems : Nat → List Char → Option (List Json × List Char)
  | 0, _ => none
  | fuel + 1, cs =>
    match parseValue fuel cs with
    | none => none
    | some (v, r) =>
      match skipWs r with
      | ',' :: r2 =>
        (match parseElems fuel r2 with
         | some (vs, r3) => some (v :: vs, r3)
         | none => none)
      | ']' :: r2 => some ([v], r2)
      | _ => none

def parseMembers : Nat → List Char → Option (List (String × Json) × List Char)
  | 0, _ => none
  | fuel + 1, cs =>
    match skipWs cs with
    | '"' :: rest =>
      (match parseJStringBody rest.length rest [] with
       | none => none
       | some (k, r) =>
         match skipWs r with
         | ':' :: r2 =>
           (match parseValue fuel r2 with
            | none => none
            | some (v, r3) =>
              match skipWs r3 with
              | ',' :: r4 =>
                (match parseMembers fuel r4 with
                 | some (ms, r5) => some ((k, v) :: ms, r5)
                 | none => none)
              | '\x7d' :: r4 => some ([(k, v)], r4)
              | _ => none)
         | _ => none)
    | _ => none

end

/-- Model of `JSON.parse`: one JSON value spanning the whole input (surrounding
whitespace allowed), otherwise a parse error (`none`). -/
def jsonParse (s : String) : Option Json :=
  match parseValue (s.data.length + 1) s.data with
  | some (v, rest) => if (skipWs rest).isEmpty then some v else none
  | none => none

/-! ## JavaScript truthiness and property access -/

/-- Whether all mantissa digits of a JSON number lexeme are zero (then the
parsed value is `0`, which is falsy). -/
def jsonNumIsZero (lex : String) : Bool :=
  (lex.data.takeWhile (fun c => c ≠ 'e' && c ≠ 'E')).all
    (fun c => !('1' ≤ c && c ≤ '9'))

/-- JavaScript truthiness of a value produced by `JSON.parse`. -/
def jsTruthy : Json → Bool
  | .null => false
  | .bool b => b
  | .num lex => !jsonNumIsZero lex
  | .str s => s ≠ ""
  | .arr _ => true
  | .obj _ => true

/-- Property access `value[key]`: defined on objects (with the JavaScript
rule that a duplicated key keeps the last occurrence), `undefined` (`none`)
on everything else. -/
def getField : Json → String → Option Json
  | .obj fields, k =>
    fields.foldl (fun acc kv => if kv.1 = k then some kv.2 else acc) none
  | _, _ => none

/-- The test `typeof v === "object"` for a `JSON.parse` result: objects, arrays and
`null`. -/
def isTypeofObject : Json → Bool
  | .null => true
  | .arr _ => true
  | .obj _ => true
  | _ => false

def optTruthy : Option Json → Bool
  | some j => jsTruthy j
  | none => false

/-! ## Session-identifier extraction (`src/lib.js`) -/

/-- The check `event.id && event.type === "session"` from `parseSessionIdFromJsonLines`. -/
def typeIsSession (event : Json) : Bool :=
  match getField event "type" with
  | some (.str s) => s = "session"
  | _ => false

def idOrNone (event : Json) : Option Json :=
  let v := getField event "id"
  if optTruthy v && typeIsSession event then v else none

/-- The three structured-event checks applied to one parsed line:
`event.session_id`, then `event.session.id` when `event.session` is a truthy
object, then `event.id` when `event.type === "session"`. -/
def sessionFromEvent (event : Json) : Option Json :=
  let v1 := getField event "session_id"
  if optTruthy v1 then v1
  else
    let s := getField event "session"
    if (match s with
        | some j => jsTruthy j && isTypeofObject j
        | none => false) then
      let v2 := getField (s.getD .null) "id"
      if optTruthy v2 then v2 else idOrNone event
    else idOrNone event

def sessionFromLines : List String → Option Json
  | [] => none
  | l :: rest =>
    if trimStartsWithBrace l then
      match jsonParse l with
      | some ev =>
        (match sessionFromEvent ev with
         | some v => some v
         | none => sessionFromLines rest)
      | none => sessionFromLines rest
    else sessionFromLines rest

/-- Model of `parseSessionIdFromJsonLines`: split into lines, drop empty lines, and
return the first session identifier found in a line that parses as a
structured JSON event; malformed lines are skipped. -/
def parseSessionIdFromJsonLines (text : String) : Option Json :=
  sessionFromLines ((splitLines text).filter (fun l => l ≠ ""))

def isHexDigit (c : Char) : Bool :=
  ('0' ≤ c && c ≤ '9') || ('a' ≤ c && c ≤ 'f') || ('A' ≤ c && c ≤ 'F')

def takeHexN : Nat → List Char → Option (List Char × List Char)
  | 0, cs => some ([], cs)
  | _ + 1, [] => none
  | n + 1, c :: cs =>
    if isHexDigit c then
      match takeHexN n cs with
      | some (h, r) => some (c :: h, r)
      | none => none
    else none

def expectDash : List Char → Option (List Char)
  | '-' :: r => some r
  | _ => none

/-- Match the `8-4-4-4-12` hexadecimal UUID shape at the head of the input,
returning the matched text. -/
def matchUuidAt (cs : List Char) : Option String := do
  let (a, r) ← takeHexN 8 cs
  let r ← expectDash r
  let (b, r) ← takeHexN 4 r
  let r ← expectDash r
  let (c, r) ← takeHexN 4 r
  let r ← expectDash r
  let (d, r) ← takeHexN 4 r
  let r ← expectDash r
  let (e, _) ← takeHexN 12 r
  pure (String.mk (a ++ '-' :: (b ++ '-' :: (c ++ '-' :: (d ++ '-' :: e)))))

/-- Leftmost UUID-shaped substring of one line, as `line.match(re)` finds it. -/
def findUuid : List Char → Option String
  | [] => none
  | c :: cs =>
    match matchUuidAt (c :: cs) with
    | some m => some m
    | none => findUuid cs

def findUuidLines : List String → Option String
  | [] => none
  | l :: ls =>
    match findUuid l.data with
    | some m => some m
    | none => findUuidLines ls

/-- Model of `parseSessionIdFromText`: first UUID-shaped substring found scanning the
text line by line. -/
def parseSessionIdFromText (text : String) : Option String :=
  findUuidLines (splitLines text)

/-- Session resolution after one agent invocation (`runCodexIteration`,
`src/lib.js` lines 338-340): structured events over the combined output,
then the first UUID in stdout or else stderr, then the session identifier
that was passed in. -/
def resolveSessionId (stdout stderr : String) (resumeSessionId : Option Json) :
    Option Json :=
  let fromJson := parseSessionIdFromJsonLines (stdout ++ "\n" ++ stderr)
  let fromText :=
    match parseSessionIdFromText stdout with
    | some s => some s
    | none => parseSessionIdFromText stderr
  match fromJson with
  | some v => some v
  | none =>
    match fromText with
    | some s => some (.str s)
    | none => resumeSessionId

/-! ## Regular expressions (`regex` promise mode)

`detectCompletion` passes the configured token to `new RegExp(...)` and,
when that compiles, calls `re.test(message)`.  The engine below models the
anchor-free regular fragment of JavaScript patterns: literals, `.`, escape
classes (`\d` `\D` `\w` `\W` `\s` `\S`), control and identity escapes,
bracket classes with ranges and negation, the quantifiers `+` `*` `?`
(with their lazy variants, which do not change `test`'s boolean result)
and alternation `|`.  Constructs outside this fragment (anchors, groups,
bounded repetition, backreferences, lookaround) are rejected by the
compiler, as are the genuine JavaScript pattern errors such as an
unterminated bracket class or a quantifier with nothing to repeat. -/

inductive RE where
  | emp
  | eps
  | cls (p : Char → Bool)
  | cat (a b : RE)
  | alt (a b : RE)
  | star (a : RE)

def REchr (c : Char) : RE := .cls (fun x => x = c)

def nullable : RE → Bool
  | .emp => false
  | .eps => true
  | .cls _ => false
  | .cat a b => nullable a && nullable b
  | .alt a b => nullable a || nullable b
  | .star _ => true

def deriv (c : Char) : RE → RE
  | .emp => .emp
  | .eps => .emp
  | .cls p => if p c then .eps else .emp
  | .cat a b =>
    if nullable a then .alt (.cat (deriv c a) b) (deriv c b)
    else .cat (deriv c a) b
  | .alt a b => .alt (deriv c a) (deriv c b)
  | .star a => .cat (deriv c a) (.star a)

/-- Whole-string match via Brzozowski derivatives. -/
def accepts (r : RE) (cs : List Char) : Bool :=
  nullable (cs.foldl (fun r c => deriv c r) r)

def anyRE : RE := .star (.cls fun _ => true)

/-- JavaScript `re.test(s)`: some substring of `s` matches, i.e. `s` is in
`Σ* · L(r) · Σ*`. -/
def rtest (r : RE) (s : String) : Bool :=
  accepts (.cat anyRE (.cat r anyRE)) s.data

def wordChar (c : Char) : Bool :=
  digitChar c || ('a' ≤ c && c ≤ 'z') || ('A' ≤ c && c ≤ 'Z') || c = '_'

def spaceChar (c : Char) : Bool :=
  wsChar c || c.toNat = 0xa0 || c.toNat = 0xfeff || c.toNat = 0x2028 || c.toNat = 0x2029

/-- Escape sequences that denote a character class. -/
def escClass? (e : Char) : Option (Char → Bool) :=
  if e = 'd' then some digitChar
  else if e = 'D' then some (fun c => !digitChar c)
  else if e = 'w' then some wordChar
  else if e = 'W' then some (fun c => !wordChar c)
  else if e = 's' then some spaceChar
  else if e = 'S' then some (fun c => !spaceChar c)
  else none

/-- Escape sequences that denote a single control character. -/
def escChar? (e : Char) : Option Char :=
  if e = 'n' then some '\n'
  else if e = 't' then some '\t'
  else if e = 'r' then some '\r'
  else if e = 'f' then some '\x0c'
  else if e = 'v' then some '\x0b'
  else if e = '0' then some (Char.ofNat 0)
  else none

/-- One atom inside a bracket class: an escape or a plain character.
`inl` is a single character, `inr` a character set.  `\b` inside a class is
the backspace character. -/
def classAtom : List Char → Option (Sum Char (Char → Bool) × List Char)
  | [] => none
  | '\\' :: [] => none
  | '\\' :: e :: rest =>
    (match escClass? e with
     | some p => some (.inr p, rest)
     | none =>
       if e = 'b' then some (.inl '\x08', rest)
       else some (.inl ((escChar? e).getD e), rest))
  | c :: rest => some (.inl c, rest)

def addChar (p : Char → Bool) (c : Char) : Char → Bool :=
  fun x => p x || x = c

def addRange (p : Char → Bool) (lo hi : Char) : Char → Bool :=
  fun x => p x || (lo ≤ x && x ≤ hi)

def addSet (p q : Char → Bool) : Char → Bool :=
  fun x => p x || q x

/-- Items of a bracket class up to the closing `]`; running out of input
(an unterminated class such as `[invalid`) is a compile error. -/
def parseClassItems : Nat → List Char → (Char → Bool) →
    Option ((Char → Bool) × List Char)
  | 0, _, _ => none
  | _ + 1, [], _ => none
  | _ + 1, ']' :: rest, acc => some (acc, rest)
  | fuel + 1, cs, acc =>
    match classAtom cs with
    | none => none
    | some (.inr p, rest) => parseClassItems fuel rest (addSet acc p)
    | some (.inl c1, rest) =>
      match rest with
      | '-' :: (']' :: _) => parseClassItems fuel rest (addChar acc c1)
      | '-' :: rest2 =>
        (match classAtom rest2 with
         | none => none
         | some (.inr p, rest3) =>
           parseClassItems fuel rest3 (addSet (addChar (addChar acc c1) '-') p)
         | some (.inl c2, rest3) =>
           if c1.toNat ≤ c2.toNat then parseClassItems fuel rest3 (addRange acc c1 c2)
           else none)
      | _ => parseClassItems fuel rest (addChar acc c1)

/-- One top-level atom of the pattern. -/
def parseREAtom (cs : List Char) : Option (RE × List Char) :=
  match cs with
  | '.' :: rest =>
    some (.cls (fun c => c ≠ '\n' && c ≠ '\r' && c.toNat ≠ 0x2028 && c.toNat ≠ 0x2029), rest)
  | '\\' :: [] => none
  | '\\' :: e :: rest =>
    (match escClass? e with
     | some p => some (.cls p, rest)
     | none =>
       if e = 'b' || e = 'B' || e = 'k' || (digitChar e && e ≠ '0') then none
       else if e = 'x' then
         match rest with
         | a :: b :: rest2 =>
           (match hexVal? a, hexVal? b with
            | some ha, some hb => some (REchr (Char.ofNat (ha * 16 + hb)), rest2)
            | _, _ => none)
         | _ => none
       else if e = 'u' then
         match rest with
         | a :: b :: c :: d :: rest2 =>
           (match hexVal? a, hexVal? b, hexVal? c, hexVal? d with
            | some ha, some hb, some hc, some hd =>
              some (REchr (Char.ofNat (((ha * 16 + hb) * 16 + hc) * 16 + hd)), rest2)
            | _, _, _, _ => none)
         | _ => none
       else some (REchr ((escChar? e).getD e), rest))
  | '[' :: '^' :: rest =>
    (match parseClassItems rest.length rest (fun _ => false) with
     | some (p, r) => some (.cls (fun c => !p c), r)
     | none => none)
  | '[' :: rest =>
    (match parseClassItems rest.length rest (fun _ => false) with
     | some (p, r) => some (.cls p, r)
     | none => none)
  | '(' :: _ => none
  | ')' :: _ => none
  | '^' :: _ => none
  | '$' :: _ => none
  | '\x7b' :: _ => none
  | '\x7d' :: _ => none
  | c :: rest => some (REchr c, rest)
  | [] => none

def isQuant (c : Char) : Bool := c = '+' || c = '*' || c = '?'

def applyQuant (r : RE) (q : Char) : RE :=
  if q = '+' then .cat r (.star r)
  else if q = '*' then .star r
  else .alt r .eps

/-- Quantifiers following an atom, with an optional lazy marker; a second
quantifier is the JavaScript `Nothing to repeat` compile error. -/
def consumeQuants (r : RE) (cs : List Char) : Option (RE × List Char) :=
  match cs with
  | [] => some (r, [])
  | q :: rest =>
    if isQuant q then
      let r := applyQuant r q
      match rest with
      | '?' :: rest2 =>
        (match rest2 with
         | q2 :: _ => if isQuant q2 then none else some (r, rest2)
         | [] => some (r, []))
      | q2 :: _ => if isQuant q2 then none else some (r, rest)
      | [] => some (r, [])
    else some (r, cs)

/-- A quantifier-decorated atom sequence, stopping at `|` or the end. -/
def parseSeq : Nat → List Char → RE → Option (RE × List Char)
  | 0, _, _ => none
  | _ + 1, [], acc => some (acc, [])
  | _ + 1, '|' :: rest, acc => some (acc, '|' :: rest)
  | fuel + 1, c :: rest, acc =>
    if isQuant c then none
    else
      match parseREAtom (c :: rest) with
      | none => none
      | some (a, rest1) =>
        match consumeQuants a rest1 with
        | none => none
        | some (a2, rest2) => parseSeq fuel rest2 (.cat acc a2)

def parseAlts : Nat → List Char → Option RE
  | 0, _ => none
  | fuel + 1, cs =>
    match parseSeq (cs.length + 1) cs .eps with
    | none => none
    | some (r, rest) =>
      match rest with
      | '|' :: rest2 =>
        (match parseAlts fuel rest2 with
         | some r2 => some (.alt r r2)
         | none => none)
      | [] => some r
      | _ => none

/-- Model of `new RegExp(pattern)` for the modelled fragment: `none` is the
compile failure that `detectCompletion` catches. -/
def compileRE (pat : String) : Option RE :=
  parseAlts (pat.data.length + 1) pat.data

/-! ## Completion detection, checkpoint scan, safe file read (`src/lib.js`) -/

/-- Model of `detectCompletion(lastMessage, promiseMode, completionPromise)`:
an empty message is falsy and never matches; `regex` mode compiles the
token and treats a compile failure as non-matching (the diagnostic print
has no observable effect on the result); `tag` mode looks for the literal
`<promise>token</promise>`; every other mode is the plain substring test. -/
def detectCompletion (lastMessage promiseMode completionPromise : String) : Bool :=
  if lastMessage = "" then false
  else if promiseMode = "regex" then
    match compileRE completionPromise with
    | none => false
    | some re => rtest re lastMessage
  else if promiseMode = "tag" then
    containsStr lastMessage ("<promise>" ++ completionPromise ++ "</promise>")
  else containsStr lastMessage completionPromise

/-- Model of `checkHardStop(todoPath, token)` reading through an explicit file-system
snapshot `fs` (`none` = the file does not exist): a missing path or missing
file never fires; otherwise the sentinel must occur in the content. -/
def checkHardStop (fs : String → Option String) (todoPath : Option String)
    (token : String) : Bool :=
  match todoPath with
  | none => false
  | some p =>
    match fs p with
    | none => false
    | some content => containsStr content token

/-- Model of `readFileSafe(filePath)`: a falsy path or an absent file reads as empty
text, never an error. -/
def readFileSafe (fs : String → Option String) (filePath : String) : String :=
  if filePath = "" then ""
  else
    match fs filePath with
    | none => ""
    | some content => content

/-! ## Loop state (`createInitialState` in `src/lib.js`)

Only the machine-relevant fields are carried; timestamps are strings fed
from the environment, stored paths keep the source's workspace-relative
form. -/

inductive LoopStatus where
  | running
  | completed
  | stopped_max_iterations
  | paused_hard_stop
  | paused_user_interrupt
  | canceled
  | error_spawn
  | error_no_session
deriving Repr, DecidableEq

structure CodexInfo where
  session_id : Option Json
  model : Option String
  sandbox : Option String
  approval : Option String
  profile : Option String
deriving Repr

structure TodoInfo where
  path : String
  hard_stop_token : String
  hard_stop_mode : String
  paused_for_hard_stop : Bool
deriving Repr

structure Artifacts where
  dir : String
  last_message_path : Option String
  jsonl_path : Option String
  jsonl_events_base : Option String
  summary_json_path : Option String
deriving Repr

structure LastResult where
  exit_code : Option Int
  detected_promise : Bool
deriving Repr

structure IterationRecord where
  iteration : Nat
  finished_at : String
  exit_code : Option Int
  detected_promise : Bool
  last_message_path : String
  jsonl_path : Option String
deriving Repr

structure LoopState where
  loop_id : String
  workspace_root : String
  prompt : String
  completion_promise : String
  promise_mode : String
  max_iterations : Nat
  same_prompt_each_iteration : Bool
  iteration : Nat
  status : LoopStatus
  codex : CodexInfo
  todo : Option TodoInfo
  artifacts : Artifacts
  history : List IterationRecord
  last_result : Option LastResult
deriving Repr

/-! ## Path helpers (`path.resolve`, `path.relative`, `computeJsonlPath`)

`path.resolve` of an absolute directory and a fresh file name is plain
joining; `path.relative` is modelled for the case of a path at or below the
workspace root, which is how the controller uses it. -/

def joinPath (dir file : String) : String := dir ++ "/" ++ file

def strStartsWith (s pre : String) : Bool := startsList pre.data s.data

def relToWorkspace (absPath workspaceRoot : String) : String :=
  if absPath = workspaceRoot then "."
  else if strStartsWith absPath (workspaceRoot ++ "/") then
    String.mk (absPath.data.drop (workspaceRoot ++ "/").data.length)
  else absPath

def endsWithStr (s suf : String) : Bool :=
  startsList suf.data.reverse s.data.reverse

/-- Model of `computeJsonlPath(jsonlBase, iteration, workspaceRoot)`. -/
def computeJsonlPath (jsonlBase : Option String) (iteration : Nat)
    (workspaceRoot : String) : Option String :=
  match jsonlBase with
  | none => none
  | some base =>
    let resolved := if strStartsWith base "/" then base else joinPath workspaceRoot base
    if endsWithStr resolved ".jsonl" then
      some (String.mk (resolved.data.take (resolved.data.length - 6)) ++
        "_iter_" ++ toString iteration ++ ".jsonl")
    else some (joinPath resolved ("events_iter_" ++ toString iteration ++ ".jsonl"))

/-! ## The loop controller (`runLoop`)

The world outside the controller is an oracle indexed by the iteration
number: the outcome of the one spawned agent process, snapshots of the file
system at the moment the final-message artifact is read and at the moment
the checkpoint file is scanned, the interactive checkpoint answer, the
interrupt flag observed at the top of the iteration, and the clock. -/

structure SpawnOk where
  exitCode : Option Int
  stdout : String
  stderr : String

inductive SpawnOutcome where
  | err
  | ok (r : SpawnOk)

structure Env where
  sigint : Nat → Bool
  spawn : Nat → SpawnOutcome
  fsAtRead : Nat → String → Option String
  fsAtCheck : Nat → String → Option String
  continueAnswer : Nat → Bool
  now : Nat → String

/-- The arguments `runLoop` receives alongside the state record. -/
structure RunCfg where
  workspaceRoot : String
  completionPromise : String
  promiseMode : String
  maxIterations : Nat
  samePromptEachIteration : Bool
  artifactsDir : String
  jsonlEventsBase : Option String
  todoFile : Option String
  hardStopToken : String
  hardStopMode : String

def lastMessagePathFor (cfg : RunCfg) (iteration : Nat) : String :=
  joinPath cfg.artifactsDir ("last_message_iter_" ++ toString iteration ++ ".txt")

inductive StepOut where
  | halt (s : LoopState)
  | next (s : LoopState)

def stepState : StepOut → LoopState
  | .halt s => s
  | .next s => s

/-- Bookkeeping after a successful invocation with a resolved session
(lines 148-174 of the loop body): store the session, advance the iteration
counter, reset the status to `running`, record the exit code, read the
final message, run detection, and append the history record.  Returns the
updated state and the detection flag. -/
def bookkeep (env : Env) (cfg : RunCfg) (state : LoopState) (iteration : Nat)
    (r : SpawnOk) (sid : Json) : LoopState × Bool :=
  let lastMessagePath := lastMessagePathFor cfg iteration
  let jsonlPath := computeJsonlPath cfg.jsonlEventsBase iteration cfg.workspaceRoot
  let relMsg := relToWorkspace lastMessagePath cfg.workspaceRoot
  let relJsonl := jsonlPath.map (fun p => relToWorkspace p cfg.workspaceRoot)
  let state := { state with
    codex := { state.codex with session_id := some sid }
    iteration := iteration
    status := .running
    last_result := some { exit_code := r.exitCode, detected_promise := false }
    artifacts := { state.artifacts with
      last_message_path := some relMsg
      jsonl_path := relJsonl } }
  let lastMessage := readFileSafe (env.fsAtRead iteration) lastMessagePath
  let detectedPromise :=
    detectCompletion lastMessage cfg.promiseMode cfg.completionPromise
  let state := { state with
    last_result := some { exit_code := r.exitCode, detected_promise := detectedPromise } }
  let record : IterationRecord := {
    iteration := iteration
    finished_at := env.now iteration
    exit_code := r.exitCode
    detected_promise := detectedPromise
    last_message_path := relMsg
    jsonl_path := relJsonl }
  ({ state with history := state.history ++ [record] }, detectedPromise)

/-- The end-of-iteration test against the cap (lines 212-220). -/
def maxCheck (cfg : RunCfg) (state : LoopState) (iteration : Nat) : StepOut :=
  if cfg.maxIterations ≤ iteration then
    .halt { state with status := .stopped_max_iterations }
  else .next state

/-- Checkpoint scan and max-iterations check after a negative detection
(lines 186-220): in `exit` mode a found sentinel halts, otherwise an
interactive confirmation decides between halting and resuming. -/
def afterDetect (env : Env) (cfg : RunCfg) (state : LoopState) (iteration : Nat) :
    StepOut :=
  if cfg.todoFile.isSome &&
      checkHardStop (env.fsAtCheck iteration) cfg.todoFile cfg.hardStopToken then
    let state := { state with
      status := .paused_hard_stop
      todo := state.todo.map (fun t => { t with paused_for_hard_stop := true }) }
    if cfg.hardStopMode = "exit" then .halt state
    else if env.continueAnswer iteration = false then .halt state
    else
      let state := { state with
        status := .running
        todo := state.todo.map (fun t => { t with paused_for_hard_stop := false }) }
      maxCheck cfg state iteration
  else maxCheck cfg state iteration

/-- One iteration of the loop body (lines 118-220): spawn, resolve the
session, do the bookkeeping, then the completion check strictly before the
checkpoint scan. -/
def runIteration (env : Env) (cfg : RunCfg) (state : LoopState) (iteration : Nat) :
    StepOut :=
  match env.spawn iteration with
  | .err =>
    .halt { state with
      status := .error_spawn
      last_result := some { exit_code := none, detected_promise := false } }
  | .ok r =>
    match resolveSessionId r.stdout r.stderr state.codex.session_id with
    | none => .halt { state with status := .error_no_session }
    | some sid =>
      let (state, detectedPromise) := bookkeep env cfg state iteration r sid
      if detectedPromise then .halt { state with status := .completed }
      else afterDetect env cfg state iteration

/-- The `for` loop over the iteration indices, with the interrupt flag
checked at the top of every iteration. -/
def runLoopGo (env : Env) (cfg : RunCfg) : LoopState → List Nat → LoopState
  | state, [] => state
  | state, i :: rest =>
    if env.sigint i then state
    else
      match runIteration env cfg state i with
      | .halt s => s
      | .next s => runLoopGo env cfg s rest

/-- Model of `runLoop`: record the event-log base in the artifacts, then run the
iterations `state.iteration + 1, …, maxIterations`. -/
def runLoop (env : Env) (cfg : RunCfg) (state : LoopState) : LoopState :=
  let state := { state with
    artifacts := { state.artifacts with
      jsonl_events_base :=
        cfg.jsonlEventsBase.map (fun p => relToWorkspace p cfg.workspaceRoot) } }
  runLoopGo env cfg state
    (List.range' (state.iteration + 1) (cfg.maxIterations - state.iteration))

/-! ## Options, initial state and resume (`buildCodexOptions`,
`createInitialState`, `handleResume`) -/

def DEFAULT_MAX_ITERATIONS : Nat := 30
def DEFAULT_COMPLETION_PROMISE : String := "TASK_COMPLETE"
def DEFAULT_PROMISE_MODE : String := "tag"
def DEFAULT_SANDBOX : String := "read-only"
def DEFAULT_APPROVAL : String := "on-request"
def DEFAULT_HARD_STOP_TOKEN : String := "HARD STOP"
def DEFAULT_HARD_STOP_MODE : String := "pause"
def DEFAULT_SAME_PROMPT_EACH_ITERATION : Bool := false

/-- JavaScript truthiness of an optional string: `undefined`, `null` and
`""` are falsy. -/
def strTruthy : Option String → Bool
  | some s => s ≠ ""
  | none => false

/-- JavaScript `a || b` on optional strings: the left value when truthy,
otherwise the right value. -/
def jsOrStr (a b : Option String) : Option String :=
  if strTruthy a then a else b

/-- JavaScript `a || d` when `d` is a plain (truthy) default. -/
def jsOrStrD (a : Option String) (d : String) : String :=
  match a with
  | some s => if s ≠ "" then s else d
  | none => d

/-- The command-line options a resumed (or started) run may carry; absent
flags are `none`/`false` exactly as `commander` leaves them. -/
structure CliOptions where
  maxIterations : Option Nat
  completionPromise : Option String
  promiseMode : Option String
  samePromptEachIteration : Option Bool
  model : Option String
  profile : Option String
  sandbox : Option String
  askForApproval : Option String
  fullAuto : Bool
  skipGitRepoCheck : Bool

structure CodexOptions where
  model : Option String
  profile : Option String
  sandbox : String
  askForApproval : String
  fullAuto : Bool
  skipGitRepoCheck : Bool
  cd : String

structure CodexFallback where
  model : Option String
  profile : Option String
  sandbox : Option String
  approval : Option String

def emptyFallback : CodexFallback :=
  { model := none, profile := none, sandbox := none, approval := none }

/-- Model of `buildCodexOptions(options, workspaceRoot, fallback)`. -/
def buildCodexOptions (options : CliOptions) (workspaceRoot : String)
    (fallback : CodexFallback) : CodexOptions :=
  let sandboxFromOptions :=
    jsOrStr options.sandbox (if options.fullAuto then some "workspace-write" else none)
  let approvalFromOptions :=
    jsOrStr options.askForApproval (if options.fullAuto then some "on-request" else none)
  { model := jsOrStr options.model (jsOrStr fallback.model none)
    profile := jsOrStr options.profile (jsOrStr fallback.profile none)
    sandbox := jsOrStrD (jsOrStr sandboxFromOptions fallback.sandbox) DEFAULT_SANDBOX
    askForApproval :=
      jsOrStrD (jsOrStr approvalFromOptions fallback.approval) DEFAULT_APPROVAL
    fullAuto := options.fullAuto
    skipGitRepoCheck := options.skipGitRepoCheck
    cd := workspaceRoot }

/-- Model of `createInitialState` (timestamps omitted; iteration `0`, status
`running`, empty history, no session). -/
def createInitialState (loopId workspaceRoot prompt completionPromise promiseMode : String)
    (maxIterations : Nat) (samePromptEachIteration : Bool)
    (artifactsDir : String) (summaryJson : Option String)
    (jsonlEventsBase : Option String) (todoFile : Option String)
    (hardStopToken hardStopMode : String) (codexOptions : CodexOptions) : LoopState :=
  { loop_id := loopId
    workspace_root := workspaceRoot
    prompt := prompt
    completion_promise := completionPromise
    promise_mode := promiseMode
    max_iterations := maxIterations
    same_prompt_each_iteration := samePromptEachIteration
    iteration := 0
    status := .running
    codex := {
      session_id := none
      model := jsOrStr codexOptions.model none
      sandbox := jsOrStr (some codexOptions.sandbox) none
      approval := jsOrStr (some codexOptions.askForApproval) none
      profile := jsOrStr codexOptions.profile none }
    todo := todoFile.map (fun t => {
      path := relToWorkspace t workspaceRoot
      hard_stop_token := hardStopToken
      hard_stop_mode := hardStopMode
      paused_for_hard_stop := false })
    artifacts := {
      dir := relToWorkspace artifactsDir workspaceRoot
      last_message_path := none
      jsonl_path := none
      jsonl_events_base := jsonlEventsBase.map (fun p => relToWorkspace p workspaceRoot)
      summary_json_path := summaryJson.map (fun p => relToWorkspace p workspaceRoot) }
    history := []
    last_result := none }

/-- The state mutations `handleResume` performs on the loaded record before
persisting it and starting the loop (lines 301-319): truthy overrides for
the cap, the promise and its mode, a defined override for the
same-prompt flag, and the rebuilt codex options. -/
def resumeUpdatedState (state : LoopState) (options : CliOptions)
    (workspaceRoot : String) : LoopState :=
  let state :=
    match options.maxIterations with
    | some n => if n ≠ 0 then { state with max_iterations := n } else state
    | none => state
  let state :=
    if strTruthy options.completionPromise then
      { state with completion_promise := options.completionPromise.getD "" }
    else state
  let state :=
    if strTruthy options.promiseMode then
      { state with promise_mode := options.promiseMode.getD "" }
    else state
  let state :=
    match options.samePromptEachIteration with
    | some b => { state with same_prompt_each_iteration := b }
    | none => state
  let codexOptions := buildCodexOptions options workspaceRoot emptyFallback
  { state with codex := { state.codex with
      model := codexOptions.model
      sandbox := some codexOptions.sandbox
      approval := some codexOptions.askForApproval
      profile := codexOptions.profile } }

/-! ## Basic lemmas about the substring test -/

theorem startsList_iff (n h : List Char) :
    startsList n h = true ↔ ∃ t, h = n ++ t := by
  induction n generalizing h with
  | nil => simp [startsList]
  | cons a as ih =>
    cases h with
    | nil =>
      simp [startsList]
    | cons b bs =>
      simp only [startsList, Bool.and_eq_true, decide_eq_true_eq, ih,
        List.cons_append, List.cons.injEq]
      constructor
      · rintro ⟨hab, t, ht⟩
        exact ⟨t, hab.symm, ht⟩
      · rintro ⟨t, hab, ht⟩
        exact ⟨hab.symm, t, ht⟩

theorem hasSub_iff (n h : List Char) :
    hasSub n h = true ↔ ∃ p t, h = p ++ n ++ t := by
  induction h with
  | nil =>
    simp only [hasSub, List.isEmpty_iff]
    constructor
    · rintro rfl
      exact ⟨[], [], rfl⟩
    · rintro ⟨p, t, hpt⟩
      rcases List.append_eq_nil.1 hpt.symm with ⟨h1, h2⟩
      rcases List.append_eq_nil.1 h1 with ⟨_, h3⟩
      exact h3
  | cons b bs ih =>
    simp only [hasSub, Bool.or_eq_true, startsList_iff, ih]
    constructor
    · rintro (⟨t, ht⟩ | ⟨p, t, hpt⟩)
      · exact ⟨[], t, by simp [ht]⟩
      · exact ⟨b :: p, t, by simp [hpt]⟩
    · rintro ⟨p, t, hpt⟩
      cases p with
      | nil =>
        exact Or.inl ⟨t, by simpa using hpt⟩
      | cons q qs =>
        simp only [List.cons_append, List.cons.injEq] at hpt
        exact Or.inr ⟨qs, t, hpt.2⟩

theorem containsStr_iff (hay needle : String) :
    containsStr hay needle = true ↔ ∃ p t, hay.data = p ++ needle.data ++ t := by
  simpa [containsStr] using hasSub_iff needle.data hay.data

theorem detectCompletion_empty (mode tok : String) :
    detectCompletion "" mode tok = false := by
  simp [detectCompletion]

/-! ## Claim theorems: completion detection -/

/-- Claim C10: for every message and token, `tag`-mode detection implies
`plain`-mode detection, because the tag match string
`<promise>token</promise>` contains the token as a substring. -/
theorem c10_tag_implies_plain (msg tok : String)
    (h : detectCompletion msg "tag" tok = true) :
    detectCompletion msg "plain" tok = true := by
  by_cases hmsg : msg = ""
  · rw [hmsg, detectCompletion_empty] at h
    exact absurd h (by simp)
  · have htag : containsStr msg ("<promise>" ++ tok ++ "</promise>") = true := by
      simpa [detectCompletion, hmsg] using h
    rcases (containsStr_iff _ _).1 htag with ⟨p, t, hpt⟩
    rw [String.data_append, String.data_append] at hpt
    have hplain : containsStr msg tok = true :=
      (containsStr_iff _ _).2
        ⟨p ++ "<promise>".data, "</promise>".data ++ t, by
          simp only [hpt]
          simp⟩
    simpa [detectCompletion, hmsg] using hplain

/-- Claim C10 witness at a concrete message and token. -/
theorem c10_tag_implies_plain_witness :
    detectCompletion "ok <promise>DONE</promise>" "plain" "DONE" = true :=
  c10_tag_implies_plain "ok <promise>DONE</promise>" "DONE" (by decide)

/-- Claim C5 counterexample: the pattern `x*` compiles and matches the
empty message, yet `detectCompletion` returns `false` there, because the
empty-message guard runs before the pattern is consulted.  So "if it
compiles, the result is whether the pattern matches the message" fails for
the empty message. -/
theorem c5_regex_empty_message_counterexample :
    (match compileRE "x*" with
     | some re => rtest re ""
     | none => false) = true ∧
    detectCompletion "" "regex" "x*" = false := by
  constructor
  · rfl
  · rfl

/-- Claim C5 (amended): regex-mode detection never raises past the
detector: a non-compiling token always yields `false`; for a non-empty
message a compiling token yields exactly the match result; the concrete
examples `detect("DONE-123", regex, "DONE-\d+") = true`,
`detect("DONE", regex, "DONE-\d+") = false` hold, and the invalid pattern
`"[invalid"` fails to compile and always yields `false`. -/
theorem c5_regex_detection :
    (∀ msg tok, compileRE tok = none → detectCompletion msg "regex" tok = false) ∧
    (∀ msg tok re, msg ≠ "" → compileRE tok = some re →
      detectCompletion msg "regex" tok = rtest re msg) ∧
    detectCompletion "DONE-123" "regex" "DONE-\\d+" = true ∧
    detectCompletion "DONE" "regex" "DONE-\\d+" = false ∧
    compileRE "[invalid" = none ∧
    (∀ msg, detectCompletion msg "regex" "[invalid" = false) := by
  refine ⟨?_, ?_, ?_, ?_, ?_, ?_⟩
  · intro msg tok h
    simp [detectCompletion, h]
  · intro msg tok re hmsg hc
    simp [detectCompletion, hmsg, hc]
  · rfl
  · rfl
  · rfl
  · intro msg
    have h : compileRE "[invalid" = none := rfl
    simp [detectCompletion, h]

/-- Claim C5 witness: the first (error-recovery) clause applied to a
concrete message and the invalid pattern. -/
theorem c5_regex_detection_witness :
    detectCompletion "some output" "regex" "[invalid" = false :=
  c5_regex_detection.1 "some output" "[invalid" (by rfl)

/-! ## Step lemmas for the loop body -/

theorem readFileSafe_of_absent (fs : String → Option String) (p : String)
    (h : fs p = none) : readFileSafe fs p = "" := by
  unfold readFileSafe
  split
  · rfl
  · rw [h]

theorem bookkeep_fst_status (env : Env) (cfg : RunCfg) (state : LoopState)
    (i : Nat) (r : SpawnOk) (sid : Json) :
    ((bookkeep env cfg state i r sid).1).status = .running := rfl

theorem bookkeep_fst_iteration (env : Env) (cfg : RunCfg) (state : LoopState)
    (i : Nat) (r : SpawnOk) (sid : Json) :
    ((bookkeep env cfg state i r sid).1).iteration = i := rfl

theorem bookkeep_snd (env : Env) (cfg : RunCfg) (state : LoopState)
    (i : Nat) (r : SpawnOk) (sid : Json) :
    (bookkeep env cfg state i r sid).2 =
      detectCompletion (readFileSafe (env.fsAtRead i) (lastMessagePathFor cfg i))
        cfg.promiseMode cfg.completionPromise := rfl

/-- After a negative detection the possible statuses are `paused_hard_stop`,
`stopped_max_iterations`, `running`, or the incoming status. -/
theorem afterDetect_status (env : Env) (cfg : RunCfg) (st : LoopState) (i : Nat)
    (h : st.status ≠ .completed) :
    (stepState (afterDetect env cfg st i)).status ≠ .completed := by
  unfold afterDetect maxCheck
  split
  · split
    · simp [stepState]
    · split
      · simp [stepState]
      · split
        · simp [stepState]
        · simp [stepState]
  · split
    · simp [stepState]
    · simpa [stepState] using h

/-- Claim C6: for all three promise modes the empty message never matches;
a falsy path or an absent file is read as empty text rather than an error;
and an iteration whose final-message artifact is missing never ends
`completed`. -/
theorem c6_empty_or_absent_message :
    (∀ mode tok, detectCompletion "" mode tok = false) ∧
    (∀ fs, readFileSafe fs "" = "") ∧
    (∀ fs p, fs p = none → readFileSafe fs p = "") ∧
    (∀ env cfg state i,
      env.fsAtRead i (lastMessagePathFor cfg i) = none →
      (stepState (runIteration env cfg state i)).status ≠ .completed) := by
  refine ⟨detectCompletion_empty, ?_, readFileSafe_of_absent, ?_⟩
  · intro fs
    simp [readFileSafe]
  · intro env cfg state i habs
    cases hs : env.spawn i with
    | err => simp [runIteration, hs, stepState]
    | ok r =>
      cases hr : resolveSessionId r.stdout r.stderr state.codex.session_id with
      | none => simp [runIteration, hs, hr, stepState]
      | some sid =>
        have hdet : (bookkeep env cfg state i r sid).2 = false := by
          rw [bookkeep_snd, readFileSafe_of_absent _ _ habs, detectCompletion_empty]
        simp only [runIteration, hs, hr]
        rw [show bookkeep env cfg state i r sid =
            ((bookkeep env cfg state i r sid).1, (bookkeep env cfg state i r sid).2)
          from rfl, hdet]
        simp only [Bool.false_eq_true, if_false]
        exact afterDetect_status env cfg _ i (by rw [bookkeep_fst_status]; simp)

/-- Claim C6 witness: the absent-artifact clause applied at a concrete
environment, configuration and state. -/
theorem c6_empty_or_absent_message_witness :
    (stepState (runIteration
      { sigint := fun _ => false
        spawn := fun _ => .ok { exitCode := some 0, stdout := "", stderr := "" }
        fsAtRead := fun _ _ => none
        fsAtCheck := fun _ _ => none
        continueAnswer := fun _ => false
        now := fun _ => "t" }
      { workspaceRoot := "/ws"
        completionPromise := "DONE"
        promiseMode := "tag"
        maxIterations := 3
        samePromptEachIteration := false
        artifactsDir := "/ws/art"
        jsonlEventsBase := none
        todoFile := none
        hardStopToken := "HARD STOP"
        hardStopMode := "pause" }
      (createInitialState "lid" "/ws" "task" "DONE" "tag" 3 false "/ws/art"
        none none none "HARD STOP" "pause"
        { model := none, profile := none, sandbox := "read-only"
          askForApproval := "on-request", fullAuto := false
          skipGitRepoCheck := false, cd := "/ws" })
      1)).status ≠ .completed :=
  c6_empty_or_absent_message.2.2.2 _ _ _ 1 rfl

/-- Reduction of one iteration when the spawn succeeds and a session is
resolved. -/
theorem runIteration_ok (env : Env) (cfg : RunCfg) (state : LoopState) (i : Nat)
    (r : SpawnOk) (sid : Json)
    (hspawn : env.spawn i = .ok r)
    (hsess : resolveSessionId r.stdout r.stderr state.codex.session_id = some sid) :
    runIteration env cfg state i =
      (if (bookkeep env cfg state i r sid).2 = true then
        .halt { (bookkeep env cfg state i r sid).1 with status := .completed }
      else afterDetect env cfg (bookkeep env cfg state i r sid).1 i) := by
  simp only [runIteration, hspawn, hsess]

/-! ## Claim theorems: session resolution priority -/

/-- Claim C2: session resolution tries structured JSON events over the
combined output first, then the first UUID-shaped substring in stdout and
then in stderr, then the passed-in identifier, first non-empty result
winning; concretely, a structured `session_id: "A"` beats a bare UUID `B`,
and nested `session.id` and `id`-with-`type:"session"` events are
recognised. -/
theorem c2_session_priority :
    (∀ out err res j, parseSessionIdFromJsonLines (out ++ "\n" ++ err) = some j →
      resolveSessionId out err res = some j) ∧
    (∀ out err res u, parseSessionIdFromJsonLines (out ++ "\n" ++ err) = none →
      parseSessionIdFromText out = some u →
      resolveSessionId out err res = some (.str u)) ∧
    (∀ out err res u, parseSessionIdFromJsonLines (out ++ "\n" ++ err) = none →
      parseSessionIdFromText out = none → parseSessionIdFromText err = some u →
      resolveSessionId out err res = some (.str u)) ∧
    (∀ out err res, parseSessionIdFromJsonLines (out ++ "\n" ++ err) = none →
      parseSessionIdFromText out = none → parseSessionIdFromText err = none →
      resolveSessionId out err res = res) ∧
    resolveSessionId
      "\x7b\"session_id\":\"A\"\x7d\n123e4567-e89b-12d3-a456-426614174000" "" none =
      some (.str "A") ∧
    parseSessionIdFromJsonLines "\x7b\"session\":\x7b\"id\":\"X\"\x7d\x7d" =
      some (.str "X") ∧
    parseSessionIdFromJsonLines "\x7b\"type\":\"session\",\"id\":\"Y\"\x7d" =
      some (.str "Y") := by
  refine ⟨?_, ?_, ?_, ?_, ?_, ?_, ?_⟩
  · intro out err res j h
    simp [resolveSessionId, h]
  · intro out err res u hj ht
    simp [resolveSessionId, hj, ht]
  · intro out err res u hj ht he
    simp [resolveSessionId, hj, ht, he]
  · intro out err res hj ht he
    simp [resolveSessionId, hj, ht, he]
  · rfl
  · rfl
  · rfl

/-- Claim C2 witness: the structured-event clause applied at a concrete
output where a fallback identifier was also passed in. -/
theorem c2_session_priority_witness :
    resolveSessionId "\x7b\"session_id\":\"A\"\x7d" "" (some (.str "Z")) =
      some (.str "A") :=
  c2_session_priority.1 "\x7b\"session_id\":\"A\"\x7d" "" (some (.str "Z"))
    (.str "A") (by rfl)

/-! ## Claim theorems: single-iteration loop behaviour -/

/-- Claim C1: when an iteration's final message satisfies completion
detection and the checkpoint file contains the sentinel, the iteration ends
`completed` (never `paused_hard_stop`) and the paused-for-checkpoint flag
is untouched: completion is checked strictly before the checkpoint scan. -/
theorem c1_completion_before_checkpoint (env : Env) (cfg : RunCfg)
    (state : LoopState) (i : Nat) (rest : List Nat) (r : SpawnOk) (sid : Json)
    (hsig : env.sigint i = false)
    (hspawn : env.spawn i = .ok r)
    (hsess : resolveSessionId r.stdout r.stderr state.codex.session_id = some sid)
    (hdet : detectCompletion (readFileSafe (env.fsAtRead i) (lastMessagePathFor cfg i))
      cfg.promiseMode cfg.completionPromise = true)
    (hchk : checkHardStop (env.fsAtCheck i) cfg.todoFile cfg.hardStopToken = true) :
    (runLoopGo env cfg state (i :: rest)).status = .completed ∧
    (runLoopGo env cfg state (i :: rest)).todo = state.todo := by
  have hb : (bookkeep env cfg state i r sid).2 = true := by
    rw [bookkeep_snd]
    exact hdet
  simp only [runLoopGo, hsig, Bool.false_eq_true, if_false,
    runIteration_ok env cfg state i r sid hspawn hsess, hb, if_true]
  refine ⟨?_, ?_⟩ <;> first | trivial | rfl

/-- Claim C4: a spawn failure ends the run immediately with status
`error_spawn`, a cleared last result, and everything else — in particular
`iteration` and `history` — unchanged; no further iteration of the
remaining range is attempted. -/
theorem c4_spawn_failure (env : Env) (cfg : RunCfg) (state : LoopState)
    (i : Nat) (rest : List Nat)
    (hsig : env.sigint i = false)
    (hspawn : env.spawn i = .err) :
    runLoopGo env cfg state (i :: rest) =
      { state with
        status := .error_spawn
        last_result := some { exit_code := none, detected_promise := false } } := by
  simp only [runLoopGo, hsig, Bool.false_eq_true, if_false, runIteration, hspawn]

/-- Claim C8: when the final message does not match, a checkpoint is
configured whose sentinel is present, and the checkpoint mode is `exit`,
the iteration ends immediately with status `paused_hard_stop`, the
paused-for-checkpoint flag set, the iteration counter at the current index,
and exactly one appended history record — the rest of the range is never
visited. -/
theorem c8_checkpoint_exit_mode (env : Env) (cfg : RunCfg) (state : LoopState)
    (i : Nat) (rest : List Nat) (r : SpawnOk) (sid : Json)
    (hsig : env.sigint i = false)
    (hspawn : env.spawn i = .ok r)
    (hsess : resolveSessionId r.stdout r.stderr state.codex.session_id = some sid)
    (hdet : detectCompletion (readFileSafe (env.fsAtRead i) (lastMessagePathFor cfg i))
      cfg.promiseMode cfg.completionPromise = false)
    (htodo : cfg.todoFile.isSome = true)
    (hchk : checkHardStop (env.fsAtCheck i) cfg.todoFile cfg.hardStopToken = true)
    (hmode : cfg.hardStopMode = "exit") :
    (runLoopGo env cfg state (i :: rest)).status = .paused_hard_stop ∧
    (runLoopGo env cfg state (i :: rest)).todo =
      state.todo.map (fun t => { t with paused_for_hard_stop := true }) ∧
    (runLoopGo env cfg state (i :: rest)).iteration = i ∧
    (runLoopGo env cfg state (i :: rest)).history = state.history ++
      [{ iteration := i
         finished_at := env.now i
         exit_code := r.exitCode
         detected_promise := false
         last_message_path := relToWorkspace (lastMessagePathFor cfg i) cfg.workspaceRoot
         jsonl_path := (computeJsonlPath cfg.jsonlEventsBase i cfg.workspaceRoot).map
           (fun p => relToWorkspace p cfg.workspaceRoot) }] := by
  have hb : (bookkeep env cfg state i r sid).2 = false := by
    rw [bookkeep_snd]
    exact hdet
  simp only [runLoopGo, hsig, Bool.false_eq_true, if_false,
    runIteration_ok env cfg state i r sid hspawn hsess, hb,
    afterDetect, htodo, hchk, hmode, Bool.and_self, if_true]
  refine ⟨?_, ?_, ?_, ?_⟩ <;> first | trivial | rfl | simp [bookkeep, hdet]

/-! ## Concrete fixtures used by the witnesses -/

def uuidA : String := "123e4567-e89b-12d3-a456-426614174000"

def coW : CodexOptions :=
  { model := none, profile := none, sandbox := "read-only"
    askForApproval := "on-request", fullAuto := false
    skipGitRepoCheck := false, cd := "/ws" }

def stTodoW : LoopState :=
  createInitialState "lid" "/ws" "task" "DONE" "plain" 3 false "/ws/art"
    none none (some "/ws/TODO.md") "HARD STOP" "exit" coW

def cfgTodoExitW : RunCfg :=
  { workspaceRoot := "/ws"
    completionPromise := "DONE"
    promiseMode := "plain"
    maxIterations := 3
    samePromptEachIteration := false
    artifactsDir := "/ws/art"
    jsonlEventsBase := none
    todoFile := some "/ws/TODO.md"
    hardStopToken := "HARD STOP"
    hardStopMode := "exit" }

def spawnOkW : SpawnOk := { exitCode := some 0, stdout := uuidA, stderr := "" }

def envDetectTodoW : Env :=
  { sigint := fun _ => false
    spawn := fun _ => .ok spawnOkW
    fsAtRead := fun _ _ => some "DONE"
    fsAtCheck := fun _ _ => some "x HARD STOP x"
    continueAnswer := fun _ => false
    now := fun _ => "t" }

def envNoDetectTodoW : Env :=
  { envDetectTodoW with fsAtRead := fun _ _ => some "keep going" }

def envSpawnErrW : Env :=
  { envDetectTodoW with spawn := fun _ => .err }

/-- Claim C1 witness: a concrete iteration whose message matches and whose
checkpoint file holds the sentinel ends `completed` with the todo record
untouched. -/
theorem c1_completion_before_checkpoint_witness :
    (runLoopGo envDetectTodoW cfgTodoExitW stTodoW [1, 2, 3]).status = .completed ∧
    (runLoopGo envDetectTodoW cfgTodoExitW stTodoW [1, 2, 3]).todo = stTodoW.todo :=
  c1_completion_before_checkpoint envDetectTodoW cfgTodoExitW stTodoW 1 [2, 3]
    spawnOkW (.str uuidA) rfl rfl (by rfl) (by rfl) (by rfl)

/-- Claim C4 witness: a concrete spawn failure returns the stored state
with only the status and last result changed. -/
theorem c4_spawn_failure_witness :
    runLoopGo envSpawnErrW cfgTodoExitW stTodoW [1, 2, 3] =
      { stTodoW with
        status := .error_spawn
        last_result := some { exit_code := none, detected_promise := false } } :=
  c4_spawn_failure envSpawnErrW cfgTodoExitW stTodoW 1 [2, 3] rfl rfl

/-- Claim C8 witness: a concrete non-matching iteration in `exit` mode with
the sentinel present pauses immediately after one history record. -/
theorem c8_checkpoint_exit_mode_witness :
    (runLoopGo envNoDetectTodoW cfgTodoExitW stTodoW [1, 2, 3]).status =
      .paused_hard_stop ∧
    (runLoopGo envNoDetectTodoW cfgTodoExitW stTodoW [1, 2, 3]).todo =
      stTodoW.todo.map (fun t => { t with paused_for_hard_stop := true }) ∧
    (runLoopGo envNoDetectTodoW cfgTodoExitW stTodoW [1, 2, 3]).iteration = 1 ∧
    (runLoopGo envNoDetectTodoW cfgTodoExitW stTodoW [1, 2, 3]).history =
      stTodoW.history ++
      [{ iteration := 1
         finished_at := envNoDetectTodoW.now 1
         exit_code := spawnOkW.exitCode
         detected_promise := false
         last_message_path :=
           relToWorkspace (lastMessagePathFor cfgTodoExitW 1) cfgTodoExitW.workspaceRoot
         jsonl_path := (computeJsonlPath cfgTodoExitW.jsonlEventsBase 1
           cfgTodoExitW.workspaceRoot).map
             (fun p => relToWorkspace p cfgTodoExitW.workspaceRoot) }] :=
  c8_checkpoint_exit_mode envNoDetectTodoW cfgTodoExitW stTodoW 1 [2, 3]
    spawnOkW (.str uuidA) rfl rfl (by rfl) (by rfl) (by rfl) (by rfl) (by rfl)

/-! ## Frame lemmas for the loop induction -/

theorem bookkeep_history_append (env : Env) (cfg : RunCfg) (state : LoopState)
    (i : Nat) (r : SpawnOk) (sid : Json) :
    ∃ rec, (bookkeep env cfg state i r sid).1.history = state.history ++ [rec] :=
  ⟨_, rfl⟩

/-- States produced by a `.halt` of `afterDetect` keep the incoming history
and iteration and are paused or stopped. -/
theorem afterDetect_halt_fields (env : Env) (cfg : RunCfg) (st : LoopState)
    (i : Nat) (s : LoopState) (h : afterDetect env cfg st i = .halt s) :
    s.history = st.history ∧ s.iteration = st.iteration ∧
    (s.status = .paused_hard_stop ∨ s.status = .stopped_max_iterations) := by
  unfold afterDetect maxCheck at h
  split at h
  · split at h
    · cases h
      exact ⟨rfl, rfl, Or.inl rfl⟩
    · split at h
      · cases h
        exact ⟨rfl, rfl, Or.inl rfl⟩
      · split at h
        · cases h
          exact ⟨rfl, rfl, Or.inr rfl⟩
        · exact StepOut.noConfusion h
  · split at h
    · cases h
      exact ⟨rfl, rfl, Or.inr rfl⟩
    · exact StepOut.noConfusion h

/-- States produced by a `.next` of `afterDetect` keep the incoming history
and iteration, and keep a `running` status running. -/
theorem afterDetect_next_fields (env : Env) (cfg : RunCfg) (st : LoopState)
    (i : Nat) (s : LoopState) (h : afterDetect env cfg st i = .next s) :
    s.history = st.history ∧ s.iteration = st.iteration ∧
    s.codex = st.codex ∧
    (st.status = .running → s.status = .running) := by
  unfold afterDetect maxCheck at h
  split at h
  · split at h
    · exact StepOut.noConfusion h
    · split at h
      · exact StepOut.noConfusion h
      · split at h
        · exact StepOut.noConfusion h
        · cases h
          exact ⟨rfl, rfl, rfl, fun _ => rfl⟩
  · split at h
    · exact StepOut.noConfusion h
    · cases h
      exact ⟨rfl, rfl, rfl, fun hs => hs⟩

/-- A continuing iteration has done exactly the bookkeeping: counter at the
current index, status `running`, one appended history record. -/
theorem runIteration_next_fields (env : Env) (cfg : RunCfg) (state : LoopState)
    (i : Nat) (s : LoopState) (h : runIteration env cfg state i = .next s) :
    s.iteration = i ∧ s.status = .running ∧
    ∃ rec, s.history = state.history ++ [rec] := by
  cases hs : env.spawn i with
  | err =>
    simp [runIteration, hs] at h
  | ok r =>
    cases hr : resolveSessionId r.stdout r.stderr state.codex.session_id with
    | none =>
      simp [runIteration, hs, hr] at h
    | some sid =>
      rw [runIteration_ok env cfg state i r sid hs hr] at h
      by_cases hd : (bookkeep env cfg state i r sid).2 = true
      · rw [hd] at h
        simp only [if_true] at h
        exact StepOut.noConfusion h
      · rw [Bool.not_eq_true] at hd
        rw [hd] at h
        simp only [Bool.false_eq_true, if_false] at h
        obtain ⟨h1, h2, _, h4⟩ := afterDetect_next_fields env cfg _ i s h
        refine ⟨h2.trans (bookkeep_fst_iteration env cfg state i r sid), ?_, ?_⟩
        · exact h4 (bookkeep_fst_status env cfg state i r sid)
        · obtain ⟨rec, hrec⟩ := bookkeep_history_append env cfg state i r sid
          exact ⟨rec, h1.trans hrec⟩

/-- A halting iteration either leaves history and iteration unchanged (the
error statuses) or appends exactly one record for the current index. -/
theorem runIteration_halt_fields (env : Env) (cfg : RunCfg) (state : LoopState)
    (i : Nat) (s : LoopState) (h : runIteration env cfg state i = .halt s) :
    (s.history = state.history ∧ s.iteration = state.iteration) ∨
    (∃ rec, s.history = state.history ++ [rec]) ∧ s.iteration = i := by
  cases hs : env.spawn i with
  | err =>
    rw [show runIteration env cfg state i =
        .halt { state with
          status := .error_spawn
          last_result := some { exit_code := none, detected_promise := false } }
      from by simp [runIteration, hs]] at h
    cases h
    exact Or.inl ⟨rfl, rfl⟩
  | ok r =>
    cases hr : resolveSessionId r.stdout r.stderr state.codex.session_id with
    | none =>
      rw [show runIteration env cfg state i =
          .halt { state with status := .error_no_session }
        from by simp [runIteration, hs, hr]] at h
      cases h
      exact Or.inl ⟨rfl, rfl⟩
    | some sid =>
      rw [runIteration_ok env cfg state i r sid hs hr] at h
      by_cases hd : (bookkeep env cfg state i r sid).2 = true
      · rw [hd] at h
        simp only [if_true] at h
        cases h
        refine Or.inr ⟨?_, bookkeep_fst_iteration env cfg state i r sid⟩
        obtain ⟨rec, hrec⟩ := bookkeep_history_append env cfg state i r sid
        exact ⟨rec, hrec⟩
      · rw [Bool.not_eq_true] at hd
        rw [hd] at h
        simp only [Bool.false_eq_true, if_false] at h
        obtain ⟨h1, h2, _⟩ := afterDetect_halt_fields env cfg _ i s h
        refine Or.inr ⟨?_, h2.trans (bookkeep_fst_iteration env cfg state i r sid)⟩
        obtain ⟨rec, hrec⟩ := bookkeep_history_append env cfg state i r sid
        exact ⟨rec, h1.trans hrec⟩

/-- Invariant propagation along the iteration range: if the history length
matches the counter at entry, it matches at exit, and the controller only
ever appends to the history. -/
theorem runLoopGo_history_inv (env : Env) (cfg : RunCfg) :
    ∀ (n : Nat) (state : LoopState), state.history.length = state.iteration →
      ((runLoopGo env cfg state (List.range' (state.iteration + 1) n)).history.length =
        (runLoopGo env cfg state (List.range' (state.iteration + 1) n)).iteration) ∧
      ∃ tail, (runLoopGo env cfg state (List.range' (state.iteration + 1) n)).history =
        state.history ++ tail := by
  intro n
  induction n with
  | zero =>
    intro state h
    exact ⟨h, [], by simp [runLoopGo]⟩
  | succ k ih =>
    intro state h
    rw [List.range'_succ]
    simp only [runLoopGo]
    by_cases hsg : env.sigint (state.iteration + 1) = true
    · rw [hsg]
      exact ⟨by simpa using h, [], by simp⟩
    · rw [Bool.not_eq_true] at hsg
      rw [hsg]
      simp only [Bool.false_eq_true, if_false]
      cases hstep : runIteration env cfg state (state.iteration + 1) with
      | halt s =>
        rcases runIteration_halt_fields env cfg state _ s hstep with
          ⟨hh, hi⟩ | ⟨⟨rec, hrec⟩, hi⟩
        · exact ⟨by rw [hh, hi, h], [], by simp [hh]⟩
        · refine ⟨?_, [rec], hrec⟩
          rw [hrec, hi, List.length_append, h]
          rfl
      | next s =>
        obtain ⟨hi, _, rec, hrec⟩ := runIteration_next_fields env cfg state _ s hstep
        have hlen : s.history.length = s.iteration := by
          rw [hrec, hi, List.length_append, h]
          rfl
        have := ih s hlen
        rw [hi] at this
        obtain ⟨h1, tail, h2⟩ := this
        exact ⟨h1, rec :: tail, by rw [h2, hrec, List.append_assoc]; rfl⟩

/-- Claim C3: starting from a state whose history length equals its
iteration counter, after the run the lengths still agree, history grew only
by appending (no reordering, truncation or mutation of existing records),
and an iteration halting in `error_spawn` or `error_no_session` leaves both
`iteration` and `history` exactly unchanged. -/
theorem c3_history_invariant (env : Env) (cfg : RunCfg) (state : LoopState)
    (h : state.history.length = state.iteration) :
    ((runLoop env cfg state).history.length = (runLoop env cfg state).iteration) ∧
    (∃ tail, (runLoop env cfg state).history = state.history ++ tail) ∧
    (∀ (env2 : Env) (cfg2 : RunCfg) (st : LoopState) (i : Nat) (s : LoopState),
      runIteration env2 cfg2 st i = .halt s →
      (s.status = .error_spawn ∨ s.status = .error_no_session) →
      s.iteration = st.iteration ∧ s.history = st.history) := by
  refine ⟨?_, ?_, ?_⟩
  · exact (runLoopGo_history_inv env cfg (cfg.maxIterations - state.iteration)
      { state with artifacts := { state.artifacts with
        jsonl_events_base :=
          cfg.jsonlEventsBase.map (fun p => relToWorkspace p cfg.workspaceRoot) } } h).1
  · exact (runLoopGo_history_inv env cfg (cfg.maxIterations - state.iteration)
      { state with artifacts := { state.artifacts with
        jsonl_events_base :=
          cfg.jsonlEventsBase.map (fun p => relToWorkspace p cfg.workspaceRoot) } } h).2
  · intro env2 cfg2 st i s hstep hstatus
    cases hs : env2.spawn i with
    | err =>
      rw [show runIteration env2 cfg2 st i =
          .halt { st with
            status := .error_spawn
            last_result := some { exit_code := none, detected_promise := false } }
        from by simp [runIteration, hs]] at hstep
      cases hstep
      exact ⟨rfl, rfl⟩
    | ok r =>
      cases hr : resolveSessionId r.stdout r.stderr st.codex.session_id with
      | none =>
        rw [show runIteration env2 cfg2 st i =
            .halt { st with status := .error_no_session }
          from by simp [runIteration, hs, hr]] at hstep
        cases hstep
        exact ⟨rfl, rfl⟩
      | some sid =>
        rw [runIteration_ok env2 cfg2 st i r sid hs hr] at hstep
        by_cases hd : (bookkeep env2 cfg2 st i r sid).2 = true
        · rw [hd] at hstep
          simp only [if_true] at hstep
          cases hstep
          simp at hstatus
        · rw [Bool.not_eq_true] at hd
          rw [hd] at hstep
          simp only [Bool.false_eq_true, if_false] at hstep
          obtain ⟨_, _, hst⟩ := afterDetect_halt_fields env2 cfg2 _ i s hstep
          rcases hst with hst | hst <;> rw [hst] at hstatus <;> simp at hstatus

/-- Claim C3 witness at a concrete fresh loop state. -/
theorem c3_history_invariant_witness :
    ((runLoop envNoDetectTodoW cfgTodoExitW stTodoW).history.length =
      (runLoop envNoDetectTodoW cfgTodoExitW stTodoW).iteration) ∧
    (∃ tail, (runLoop envNoDetectTodoW cfgTodoExitW stTodoW).history =
      stTodoW.history ++ tail) ∧
    (∀ (env2 : Env) (cfg2 : RunCfg) (st : LoopState) (i : Nat) (s : LoopState),
      runIteration env2 cfg2 st i = .halt s →
      (s.status = .error_spawn ∨ s.status = .error_no_session) →
      s.iteration = st.iteration ∧ s.history = st.history) :=
  c3_history_invariant envNoDetectTodoW cfgTodoExitW stTodoW rfl

/-! ## Exhaustion -/

/-- If a session can be resolved with no fallback identifier, it can be
resolved with any fallback. -/
theorem resolveSessionId_isSome_any (stdout stderr : String) (res : Option Json)
    (h : (resolveSessionId stdout stderr none).isSome = true) :
    ∃ sid, resolveSessionId stdout stderr res = some sid := by
  unfold resolveSessionId at h ⊢
  cases hj : parseSessionIdFromJsonLines (stdout ++ "\n" ++ stderr) with
  | some v => exact ⟨v, by simp [hj]⟩
  | none =>
    cases ht : parseSessionIdFromText stdout with
    | some u => exact ⟨.str u, by simp [hj, ht]⟩
    | none =>
      cases he : parseSessionIdFromText stderr with
      | some u => exact ⟨.str u, by simp [hj, ht, he]⟩
      | none => simp [hj, ht, he] at h

/-- Reduction of an iteration that succeeds, resolves a session, detects
nothing and finds no checkpoint sentinel: only the cap decides. -/
theorem runIteration_normal (env : Env) (cfg : RunCfg) (state : LoopState)
    (i : Nat) (r : SpawnOk) (sid : Json)
    (hspawn : env.spawn i = .ok r)
    (hsess : resolveSessionId r.stdout r.stderr state.codex.session_id = some sid)
    (hdet : detectCompletion (readFileSafe (env.fsAtRead i) (lastMessagePathFor cfg i))
      cfg.promiseMode cfg.completionPromise = false)
    (hchk : (cfg.todoFile.isSome &&
      checkHardStop (env.fsAtCheck i) cfg.todoFile cfg.hardStopToken) = false) :
    runIteration env cfg state i =
      maxCheck cfg (bookkeep env cfg state i r sid).1 i := by
  have hb : (bookkeep env cfg state i r sid).2 = false := by
    rw [bookkeep_snd]
    exact hdet
  rw [runIteration_ok env cfg state i r sid hspawn hsess, hb]
  simp only [Bool.false_eq_true, if_false, afterDetect, hchk]

/-- Exhaustion along the remaining range: with no interrupt, no detection,
no sentinel and every spawn succeeding with a resolvable session, the run
walks the whole range and stops at the cap. -/
theorem runLoopGo_exhaust (env : Env) (cfg : RunCfg)
    (hsig : ∀ i, env.sigint i = false)
    (hspawn : ∀ i, ∃ r, env.spawn i = .ok r ∧
      (resolveSessionId r.stdout r.stderr none).isSome = true)
    (hdet : ∀ i, detectCompletion
      (readFileSafe (env.fsAtRead i) (lastMessagePathFor cfg i))
      cfg.promiseMode cfg.completionPromise = false)
    (hchk : ∀ i, (cfg.todoFile.isSome &&
      checkHardStop (env.fsAtCheck i) cfg.todoFile cfg.hardStopToken) = false) :
    ∀ (n : Nat) (state : LoopState), state.iteration + n = cfg.maxIterations →
      0 < n →
      (runLoopGo env cfg state (List.range' (state.iteration + 1) n)).status =
        .stopped_max_iterations ∧
      (runLoopGo env cfg state (List.range' (state.iteration + 1) n)).iteration =
        cfg.maxIterations := by
  intro n
  induction n with
  | zero =>
    intro state _ h0
    exact absurd h0 (by simp)
  | succ k ih =>
    intro state hsum _
    obtain ⟨r, hsp, hsome⟩ := hspawn (state.iteration + 1)
    obtain ⟨sid, hres⟩ :=
      resolveSessionId_isSome_any r.stdout r.stderr state.codex.session_id hsome
    rw [List.range'_succ]
    simp only [runLoopGo, hsig (state.iteration + 1), Bool.false_eq_true, if_false,
      runIteration_normal env cfg state (state.iteration + 1) r sid hsp hres
        (hdet (state.iteration + 1)) (hchk (state.iteration + 1)),
      maxCheck]
    by_cases hk : k = 0
    · subst hk
      have hmax : cfg.maxIterations ≤ state.iteration + 1 := by omega
      rw [if_pos hmax]
      exact ⟨rfl, by
        have := bookkeep_fst_iteration env cfg state (state.iteration + 1) r sid
        show (bookkeep env cfg state (state.iteration + 1) r sid).1.iteration =
          cfg.maxIterations
        omega⟩
    · have hlt : ¬ cfg.maxIterations ≤ state.iteration + 1 := by omega
      rw [if_neg hlt]
      have hbit := bookkeep_fst_iteration env cfg state (state.iteration + 1) r sid
      have hrange : List.range' (state.iteration + 1 + 1) k =
          List.range' ((bookkeep env cfg state (state.iteration + 1) r sid).1.iteration + 1) k := by
        rw [hbit]
      rw [hrange]
      exact ih (bookkeep env cfg state (state.iteration + 1) r sid).1
        (by omega) (by omega)

/-- Claim C7: when no final message ever matches and no checkpoint sentinel
fires, the controller runs up to exactly `max_iterations` and ends with
status `stopped_max_iterations` and `iteration = max_iterations`. -/
theorem c7_exhaustion (env : Env) (cfg : RunCfg) (state : LoopState)
    (hstart : state.iteration < cfg.maxIterations)
    (hsig : ∀ i, env.sigint i = false)
    (hspawn : ∀ i, ∃ r, env.spawn i = .ok r ∧
      (resolveSessionId r.stdout r.stderr none).isSome = true)
    (hdet : ∀ i, detectCompletion
      (readFileSafe (env.fsAtRead i) (lastMessagePathFor cfg i))
      cfg.promiseMode cfg.completionPromise = false)
    (hchk : ∀ i, (cfg.todoFile.isSome &&
      checkHardStop (env.fsAtCheck i) cfg.todoFile cfg.hardStopToken) = false) :
    (runLoop env cfg state).status = .stopped_max_iterations ∧
    (runLoop env cfg state).iteration = cfg.maxIterations :=
  runLoopGo_exhaust env cfg hsig hspawn hdet hchk
    (cfg.maxIterations - state.iteration)
    { state with artifacts := { state.artifacts with
      jsonl_events_base :=
        cfg.jsonlEventsBase.map (fun p => relToWorkspace p cfg.workspaceRoot) } }
    (by simp only []; omega) (by omega)

/-- Claim C7 witness: three non-matching iterations at `max_iterations = 3`
end with `stopped_max_iterations` and `iteration = 3`. -/
theorem c7_exhaustion_witness :
    (runLoop envNoDetectTodoW
      { cfgTodoExitW with todoFile := none } stTodoW).status =
      .stopped_max_iterations ∧
    (runLoop envNoDetectTodoW
      { cfgTodoExitW with todoFile := none } stTodoW).iteration = 3 :=
  c7_exhaustion envNoDetectTodoW { cfgTodoExitW with todoFile := none } stTodoW
    (by decide)
    (fun _ => rfl)
    (fun i => ⟨spawnOkW, rfl, by rfl⟩)
    (fun i => by rfl)
    (fun _ => rfl)

/-! ## Resume overrides -/

/-- Claim C9 counterexample: resuming with the override value `""` for
`completion_promise` (a supplied override value, e.g. via
`--completion-promise ""`) is ignored because the code guards each override
with JavaScript truthiness, so the persisted record keeps the stored value
instead of reflecting the supplied one. -/
theorem c9_resume_overrides_counterexample :
    ({ maxIterations := none, completionPromise := some "", promiseMode := none
       samePromptEachIteration := none, model := none, profile := none
       sandbox := none, askForApproval := none, fullAuto := false
       skipGitRepoCheck := false } : CliOptions).completionPromise = some "" ∧
    (resumeUpdatedState stTodoW
      { maxIterations := none, completionPromise := some "", promiseMode := none
        samePromptEachIteration := none, model := none, profile := none
        sandbox := none, askForApproval := none, fullAuto := false
        skipGitRepoCheck := false } "/ws").completion_promise = "DONE" := by
  exact ⟨rfl, rfl⟩

/-- Claim C9 (amended): on resume, a truthy override is applied — a nonzero
`max_iterations`, a non-empty `completion_promise` or `promise_mode`, a
defined `same_prompt_each_iteration` — and the codex invocation options are
rebuilt from the supplied options; the original `loop_id`, `prompt`, stored
session identifier, history and iteration counter are unchanged (iteration
numbering therefore continues from the stored value). -/
theorem c9_resume_overrides (state : LoopState) (options : CliOptions)
    (ws : String) :
    (resumeUpdatedState state options ws).loop_id = state.loop_id ∧
    (resumeUpdatedState state options ws).prompt = state.prompt ∧
    (resumeUpdatedState state options ws).codex.session_id = state.codex.session_id ∧
    (resumeUpdatedState state options ws).history = state.history ∧
    (resumeUpdatedState state options ws).iteration = state.iteration ∧
    (∀ n, options.maxIterations = some n → n ≠ 0 →
      (resumeUpdatedState state options ws).max_iterations = n) ∧
    (∀ p, options.completionPromise = some p → p ≠ "" →
      (resumeUpdatedState state options ws).completion_promise = p) ∧
    (∀ m, options.promiseMode = some m → m ≠ "" →
      (resumeUpdatedState state options ws).promise_mode = m) ∧
    (∀ b, options.samePromptEachIteration = some b →
      (resumeUpdatedState state options ws).same_prompt_each_iteration = b) ∧
    (resumeUpdatedState state options ws).codex.model =
      (buildCodexOptions options ws emptyFallback).model ∧
    (resumeUpdatedState state options ws).codex.profile =
      (buildCodexOptions options ws emptyFallback).profile ∧
    (resumeUpdatedState state options ws).codex.sandbox =
      some (buildCodexOptions options ws emptyFallback).sandbox ∧
    (resumeUpdatedState state options ws).codex.approval =
      some (buildCodexOptions options ws emptyFallback).askForApproval := by
  unfold resumeUpdatedState
  rcases options with ⟨mi, cp, pm, sp, mo, pr, sb, aa, fa, sg⟩
  repeat' apply And.intro
  all_goals
    cases mi <;> cases cp <;> cases pm <;> cases sp <;>
      simp_all [strTruthy] <;> split_ifs <;> simp_all

/-- Claim C9 witness: a concrete resume with truthy overrides reflects all
of them while preserving identity, prompt, session, history and the
iteration counter. -/
theorem c9_resume_overrides_witness :
    (resumeUpdatedState stTodoW
      { maxIterations := some 9, completionPromise := some "NEW"
        promiseMode := some "plain", samePromptEachIteration := some true
        model := some "m1", profile := none, sandbox := none
        askForApproval := none, fullAuto := false
        skipGitRepoCheck := false } "/ws").loop_id = stTodoW.loop_id ∧
    (resumeUpdatedState stTodoW
      { maxIterations := some 9, completionPromise := some "NEW"
        promiseMode := some "plain", samePromptEachIteration := some true
        model := some "m1", profile := none, sandbox := none
        askForApproval := none, fullAuto := false
        skipGitRepoCheck := false } "/ws").max_iterations = 9 ∧
    (resumeUpdatedState stTodoW
      { maxIterations := some 9, completionPromise := some "NEW"
        promiseMode := some "plain", samePromptEachIteration := some true
        model := some "m1", profile := none, sandbox := none
        askForApproval := none, fullAuto := false
        skipGitRepoCheck := false } "/ws").completion_promise = "NEW" ∧
    (resumeUpdatedState stTodoW
      { maxIterations := some 9, completionPromise := some "NEW"
        promiseMode := some "plain", samePromptEachIteration := some true
        model := some "m1", profile := none, sandbox := none
        askForApproval := none, fullAuto := false
        skipGitRepoCheck := false } "/ws").history = stTodoW.history :=
  ⟨(c9_resume_overrides stTodoW _ "/ws").1,
   (c9_resume_overrides stTodoW _ "/ws").2.2.2.2.2.1 9 rfl (by decide),
   (c9_resume_overrides stTodoW _ "/ws").2.2.2.2.2.2.1 "NEW" rfl (by decide),
   (c9_resume_overrides stTodoW _ "/ws").2.2.2.1⟩

end Smithers
